import Mathlib

/-
Verification of the bus-transaction and primitive-rasterization layer of the
Soldered TFT-LCD 2.8" breakout driver (Adafruit_SPITFT_SR.cpp).

The driver is embedded shallowly: every drawing or bus operation is modelled
as a pure function returning the list of observable bus events it issues, in
order.  Machine integers are modelled as Int (for the int16_t coordinate
arithmetic, with explicit two's-complement truncation at every assignment to
an int16_t variable) and Nat (for the unsigned byte/word/longword payloads,
with explicit mod-2^w truncation at parameter boundaries).
-/

namespace SPITFT

/-- Observable bus events issued by the driver. `beginT`/`endT` are the
hardware-SPI transaction brackets, `csHigh`/`csLow`/`wrLow`/`wrHigh`/
`dcLow`/`dcHigh` are digital writes on the chip-select, write-strobe and
data/command lines, `xfer b` is a single 8-bit SPI transfer of byte `b`,
`serial n` is a debug print of `n` to the serial console (not bus activity),
and `addrWindow x y w h` is the device-specific addressing-window call. -/
inductive Ev : Type where
  | beginT : Ev
  | endT : Ev
  | csHigh : Ev
  | csLow : Ev
  | wrLow : Ev
  | wrHigh : Ev
  | dcLow : Ev
  | dcHigh : Ev
  | xfer : Nat → Ev
  | serial : Nat → Ev
  | addrWindow : Int → Int → Int → Int → Ev
deriving DecidableEq, Repr

/-- Truncation of an unbounded integer to a signed 16-bit value, used at
every assignment to an int16_t variable in the source. -/
def toInt16 (v : Int) : Int := (v + 32768) % 65536 - 32768

/-- Conversion of a signed value to uint32_t, as in the C cast
performed when an int16_t is passed for a uint32_t parameter. -/
def toUInt32 (v : Int) : Nat := (v % 4294967296).toNat

/-- TFT_WR_STROBE: sets the WR line LOW, then HIGH. -/
def TFT_WR_STROBE : List Ev := [Ev.wrLow, Ev.wrHigh]

/-- TFT_CS_STROBE: sets the CS line HIGH, then LOW.  Modelled from the spec:
the SPI_CS_HIGH/SPI_CS_LOW macros live in the header Adafruit_SPITFT_SR.h,
which is not among the provided sources; per the spec's chip-select
discipline they drive the CS line high resp. low. -/
def TFT_CS_STROBE : List Ev := [Ev.csHigh, Ev.csLow]

/-- SPI_DC_LOW: asserts command mode on the data/command line.  Modelled from
the spec: the macro lives in the missing header; per the spec it drives the
DC line low to mark subsequent bytes as opcodes. -/
def SPI_DC_LOW : List Ev := [Ev.dcLow]

/-- SPI_DC_HIGH: asserts data mode on the data/command line.  Modelled from
the spec: the macro lives in the missing header; per the spec it drives the
DC line high to mark subsequent bytes as data. -/
def SPI_DC_HIGH : List Ev := [Ev.dcHigh]

/-- SPI_BEGIN_TRANSACTION: begins a hardware-SPI transaction with the stored
settings. -/
def SPI_BEGIN_TRANSACTION : List Ev := [Ev.beginT]

/-- SPI_END_TRANSACTION: ends the hardware-SPI transaction, then strobes CS
and WR so the downstream shift-register/latch hardware commits the word. -/
def SPI_END_TRANSACTION : List Ev := [Ev.endT] ++ TFT_CS_STROBE ++ TFT_WR_STROBE

/-- spiWrite: issues one 8-bit value, transferred twice inside a single
transaction bracket, with a debug serial print of the byte. -/
def spiWrite (b : Nat) : List Ev :=
  let b := b % 256
  SPI_BEGIN_TRANSACTION ++ [Ev.xfer b, Ev.xfer b, Ev.serial (b &&& 255)] ++
    SPI_END_TRANSACTION

/-- SPI_WRITE16: issues one 16-bit value, high byte then low byte, inside a
single transaction bracket, with debug serial prints of both bytes. -/
def SPI_WRITE16 (w : Nat) : List Ev :=
  let w := w % 65536
  SPI_BEGIN_TRANSACTION ++
    [Ev.serial ((w >>> 8) &&& 255), Ev.serial (w &&& 255),
     Ev.xfer ((w >>> 8) % 256), Ev.xfer (w % 256)] ++
    SPI_END_TRANSACTION

/-- SPI_WRITE32: issues one 32-bit value as two separately bracketed 16-bit
word transfers, high word first, each word high byte first. -/
def SPI_WRITE32 (l : Nat) : List Ev :=
  let l := l % 4294967296
  SPI_BEGIN_TRANSACTION ++
    [Ev.serial ((l >>> 24) % 256), Ev.serial ((l >>> 16) % 256),
     Ev.xfer ((l >>> 24) % 256), Ev.xfer ((l >>> 16) % 256)] ++
    SPI_END_TRANSACTION ++
  SPI_BEGIN_TRANSACTION ++
    [Ev.serial ((l >>> 8) % 256), Ev.serial (l % 256),
     Ev.xfer ((l >>> 8) % 256), Ev.xfer (l % 256)] ++
    SPI_END_TRANSACTION

/-- writeCommand: selects command mode, issues the byte, restores data mode. -/
def writeCommand (cmd : Nat) : List Ev :=
  SPI_DC_LOW ++ spiWrite cmd ++ SPI_DC_HIGH

/-- sendCommand (non-const uint8_t overload): command mode, opcode byte, data
mode, then one loop iteration per declared payload byte, each opening a fresh
transaction and writing the 16-bit command value again.  The dataBytes
pointer parameter is accepted but never read. -/
def sendCommand (commandByte : Nat) (dataBytes : List Nat) (numDataBytes : Nat) :
    List Ev :=
  let commandByte := commandByte % 256
  let numDataBytes := numDataBytes % 256
  SPI_DC_LOW ++ spiWrite commandByte ++ SPI_DC_HIGH ++
    (List.range numDataBytes).flatMap (fun _ =>
      SPI_BEGIN_TRANSACTION ++ SPI_WRITE16 commandByte ++ SPI_END_TRANSACTION)

/-- setSPISpeed support: the mutable transfer settings of the hardware-SPI
sub-channel (clock frequency, bit order, SPI mode). -/
structure SPISettings where
  clock : Nat
  msbFirst : Bool
  dataMode : Nat
deriving DecidableEq, Repr

/-- MSBFIRST bit-order flag as used in SPISettings construction. -/
def MSBFIRST : Bool := true

/-- SPI_MODE0 clock polarity/phase tag as used in SPISettings construction. -/
def SPI_MODE0 : Nat := 0

/-- setSPISpeed: reconstructs hwspi.settings.  The source passes the
DEFAULT_SPI_FREQ constant (defined in the missing header, here taken as an
explicit argument) rather than the freq parameter it received. -/
def setSPISpeed (DEFAULT_SPI_FREQ : Nat) (freq : Nat) (s : SPISettings) :
    SPISettings :=
  { clock := DEFAULT_SPI_FREQ, msbFirst := MSBFIRST, dataMode := SPI_MODE0 }

/-- color565: packs 8-bit red, green, blue into a 16-bit 5-6-5 value; the
int-typed expression is truncated to uint16_t at return. -/
def color565 (red green blue : Nat) : Nat :=
  let red := red % 256
  let green := green % 256
  let blue := blue % 256
  (((red &&& 0xF8) <<< 8) ||| ((green &&& 0xFC) <<< 3) ||| (blue >>> 3)) % 65536

/-- bswap16 models the __builtin_bswap16 intrinsic: the two bytes of the
16-bit value are exchanged (the argument is received as uint16_t). -/
def bswap16 (v : Nat) : Nat := (v % 256) * 256 + (v / 256) % 256

/-- swapBytes: writes the byte-swap of the first len elements of src into
dest, leaving the remaining dest elements untouched.  The source's NULL
destination convention (overwrite src in place) is expressed by passing src
itself as dest. -/
def swapBytes (src : List Nat) (len : Nat) (dest : List Nat) : List Nat :=
  (List.range dest.length).map (fun i =>
    if i < len then bswap16 (src.getD i 0) else dest.getD i 0)

/-- peek reads a uint16_t memory cell at (possibly out-of-range) pointer
offset p of buffer l; out-of-range reads, undefined behaviour in the C, give
an unspecified junk value modelled as 0. -/
def peek (l : List Nat) (p : Int) : Nat :=
  if 0 ≤ p then l.getD p.toNat 0 % 65536 else 0

/-- writeColor: streams len copies of one 16-bit color; a zero length issues
nothing. -/
def writeColor (color : Nat) (len : Nat) : List Ev :=
  if len = 0 then [] else (List.range len).flatMap (fun _ => SPI_WRITE16 color)

/-- writePixels: streams len 16-bit pixels read from buffer colors starting
at pointer offset start; a zero length issues nothing.  The block and
bigEndian parameters are accepted and ignored by the source. -/
def writePixels (colors : List Nat) (start : Int) (len : Nat)
    (block : Bool := true) (bigEndian : Bool := false) : List Ev :=
  if len = 0 then []
  else (List.range len).flatMap (fun i => SPI_WRITE16 (peek colors (start + i)))

/-- writeFillRectPreclipped: programs the addressing window and streams
w * h pixels of the fill color; the pixel count is computed as the uint32_t
product of the int16_t extents. -/
def writeFillRectPreclipped (x y w h : Int) (color : Nat) : List Ev :=
  Ev.addrWindow x y w h :: writeColor color ((toUInt32 w * toUInt32 h) % 4294967296)

/-- writePixel: clips a single pixel against the surface and, when on
screen, programs a 1-by-1 window and writes the color word. -/
def writePixel (W H : Int) (x y : Int) (color : Nat) : List Ev :=
  if 0 ≤ x ∧ x < W ∧ 0 ≤ y ∧ y < H then Ev.addrWindow x y 1 1 :: SPI_WRITE16 color
  else []

/-- drawPixel: the self-contained variant; its body in the source is
identical to writePixel's (clip, then window and color word). -/
def drawPixel (W H : Int) (x y : Int) (color : Nat) : List Ev :=
  if 0 ≤ x ∧ x < W ∧ 0 ≤ y ∧ y < H then Ev.addrWindow x y 1 1 :: SPI_WRITE16 color
  else []

/-- Rect is the rectangle handed to writeFillRectPreclipped. -/
structure Rect where
  x : Int
  y : Int
  w : Int
  h : Int
deriving DecidableEq, Repr

/-- fillRectClip is the clipping-and-rejection cascade shared verbatim by
writeFillRect and fillRect: zero-extent rejection, negative-extent
normalization, the four off-screen rejection tests, and the four edge clips,
with int16_t truncation at every variable assignment.  It returns the
rectangle passed on to writeFillRectPreclipped, or none when the request is
rejected before any bus activity. -/
def fillRectClip (W H : Int) (x y w h : Int) : Option Rect :=
  if w ≠ 0 ∧ h ≠ 0 then
    let x0 := if w < 0 then toInt16 (x + w + 1) else x
    let w0 := if w < 0 then toInt16 (-w) else w
    if x0 < W then
      let y0 := if h < 0 then toInt16 (y + h + 1) else y
      let h0 := if h < 0 then toInt16 (-h) else h
      if y0 < H then
        let x2 := toInt16 (x0 + w0 - 1)
        if 0 ≤ x2 then
          let y2 := toInt16 (y0 + h0 - 1)
          if 0 ≤ y2 then
            let x1 := if x0 < 0 then 0 else x0
            let w1 := if x0 < 0 then toInt16 (x2 + 1) else w0
            let y1 := if y0 < 0 then 0 else y0
            let h1 := if y0 < 0 then toInt16 (y2 + 1) else h0
            let w2 := if W ≤ x2 then toInt16 (W - x1) else w1
            let h2 := if H ≤ y2 then toInt16 (H - y1) else h1
            some ⟨x1, y1, w2, h2⟩
          else none
        else none
      else none
    else none
  else none

/-- writeFillRect: clips and, unless rejected, dispatches the preclipped
fill. -/
def writeFillRect (W H : Int) (x y w h : Int) (color : Nat) : List Ev :=
  match fillRectClip W H x y w h with
  | some r => writeFillRectPreclipped r.x r.y r.w r.h color
  | none => []

/-- fillRect: the self-contained variant; its body in the source repeats
writeFillRect's clipping cascade verbatim and dispatches the same preclipped
fill. -/
def fillRect (W H : Int) (x y w h : Int) (color : Nat) : List Ev :=
  match fillRectClip W H x y w h with
  | some r => writeFillRectPreclipped r.x r.y r.w r.h color
  | none => []

/-- drawFastHLine: the self-contained horizontal-line variant, with the same
x-dimension rejection/normalization/clipping cascade and a fixed height of
one. -/
def drawFastHLine (W H : Int) (x y w : Int) (color : Nat) : List Ev :=
  if 0 ≤ y ∧ y < H ∧ w ≠ 0 then
    let x0 := if w < 0 then toInt16 (x + w + 1) else x
    let w0 := if w < 0 then toInt16 (-w) else w
    if x0 < W then
      let x2 := toInt16 (x0 + w0 - 1)
      if 0 ≤ x2 then
        let x1 := if x0 < 0 then 0 else x0
        let w1 := if x0 < 0 then toInt16 (x2 + 1) else w0
        let w2 := if W ≤ x2 then toInt16 (W - x1) else w1
        writeFillRectPreclipped x1 y w2 1 color
      else []
    else []
  else []

/-- drawFastVLine: the self-contained vertical-line variant, with the same
y-dimension rejection/normalization/clipping cascade and a fixed width of
one. -/
def drawFastVLine (W H : Int) (x y h : Int) (color : Nat) : List Ev :=
  if 0 ≤ x ∧ x < W ∧ h ≠ 0 then
    let y0 := if h < 0 then toInt16 (y + h + 1) else y
    let h0 := if h < 0 then toInt16 (-h) else h
    if y0 < H then
      let y2 := toInt16 (y0 + h0 - 1)
      if 0 ≤ y2 then
        let y1 := if y0 < 0 then 0 else y0
        let h1 := if y0 < 0 then toInt16 (y2 + 1) else h0
        let h2 := if H ≤ y2 then toInt16 (H - y1) else h1
        writeFillRectPreclipped x y1 1 h2 color
      else []
    else []
  else []

/-- drawRGBBitmapRows models the row loop of drawRGBBitmap: one writePixels
call per scanline, the source pointer advancing by the unclipped original
stride after each row. -/
def drawRGBBitmapRows (pcolors : List Nat) (ptr saveW w : Int) : Nat → List Ev
  | 0 => []
  | n + 1 =>
      writePixels pcolors ptr (toUInt32 w) ++
        drawRGBBitmapRows pcolors (ptr + saveW) saveW w n

/-- rowCount gives the number of iterations of the int16_t countdown loop
while (h--): h iterations for nonnegative h, and h + 65536 when h enters the
loop negative (the counter wraps through the whole int16_t range). -/
def rowCount (h : Int) : Nat := if 0 ≤ h then h.toNat else (h + 65536).toNat

/-- drawRGBBitmap: rejects requests past any surface edge (with int16_t
truncation in the far-edge computations), clips the remaining region,
offsets the source pointer to the clipped top-left, programs the window and
streams the clipped rows, advancing the pointer by the unclipped stride. -/
def drawRGBBitmap (W H : Int) (x y : Int) (pcolors : List Nat) (w h : Int) :
    List Ev :=
  let x2 := toInt16 (x + w - 1)
  let y2 := toInt16 (y + h - 1)
  if x ≥ W ∨ y ≥ H ∨ x2 < 0 ∨ y2 < 0 then []
  else
    let saveW := w
    let w1 := if x < 0 then toInt16 (w + x) else w
    let bx1 := if x < 0 then toInt16 (-x) else 0
    let x1 := if x < 0 then 0 else x
    let h1 := if y < 0 then toInt16 (h + y) else h
    let by1 := if y < 0 then toInt16 (-y) else 0
    let y1 := if y < 0 then 0 else y
    let w2 := if x2 ≥ W then toInt16 (W - x1) else w1
    let h2 := if y2 ≥ H then toInt16 (H - y1) else h1
    Ev.addrWindow x1 y1 w2 h2 ::
      drawRGBBitmapRows pcolors (by1 * saveW + bx1) saveW w2 (rowCount h2)

/-- spanLo is the specification-side normalized near edge of a span: the
origin shifted to the left end for a negative extent. -/
def spanLo (x w : Int) : Int := if w < 0 then x + w + 1 else x

/-- spanHi is the specification-side normalized far edge of a span. -/
def spanHi (x w : Int) : Int := if w < 0 then x else x + w - 1

/-- spanOutside states, in the spec's terms, that the normalized span lies
fully outside the surface interval from 0 to L. -/
abbrev spanOutside (L x w : Int) : Prop := spanHi x w < 0 ∨ spanLo x w ≥ L

/-- isXfer recognizes the 8-bit bus-transfer events of a trace. -/
def isXfer : Ev → Bool
  | .xfer _ => true
  | _ => false

theorem and255 (n : Nat) : n &&& 255 = n % 256 := by
  simpa using Nat.and_pow_two_sub_one_eq_mod n 8

theorem toInt16_eq_self (v : Int) (h1 : -32768 ≤ v) (h2 : v ≤ 32767) :
    toInt16 v = v := by
  unfold toInt16; omega

theorem SPI_WRITE16_eq (w : Nat) (hw : w < 65536) :
    SPI_WRITE16 w =
      [Ev.beginT, Ev.serial (w / 256), Ev.serial (w % 256),
       Ev.xfer (w / 256), Ev.xfer (w % 256), Ev.endT,
       Ev.csHigh, Ev.csLow, Ev.wrLow, Ev.wrHigh] := by
  simp only [SPI_WRITE16, SPI_BEGIN_TRANSACTION, SPI_END_TRANSACTION,
    TFT_CS_STROBE, TFT_WR_STROBE, Nat.mod_eq_of_lt hw,
    Nat.shiftRight_eq_div_pow, and255, List.cons_append, List.nil_append,
    List.cons.injEq, Ev.serial.injEq, Ev.xfer.injEq, and_true, true_and]
  norm_num
  omega

theorem spiWrite_eq (b : Nat) (hb : b < 256) :
    spiWrite b =
      [Ev.beginT, Ev.xfer b, Ev.xfer b, Ev.serial b, Ev.endT,
       Ev.csHigh, Ev.csLow, Ev.wrLow, Ev.wrHigh] := by
  simp only [spiWrite, SPI_BEGIN_TRANSACTION, SPI_END_TRANSACTION,
    TFT_CS_STROBE, TFT_WR_STROBE, Nat.mod_eq_of_lt hb, and255,
    List.cons_append, List.nil_append, List.cons.injEq, Ev.serial.injEq,
    Ev.xfer.injEq, and_true, true_and]

/-- C7: spiWrite transmits its byte over the bus exactly twice, inside one
begin/end transaction bracket (followed by the CS and WR commit strobes of
SPI_END_TRANSACTION). -/
theorem spiWrite_duplicates_byte (b : Nat) (hb : b < 256) :
    spiWrite b =
      SPI_BEGIN_TRANSACTION ++ [Ev.xfer b, Ev.xfer b, Ev.serial b] ++
        SPI_END_TRANSACTION ∧
    (spiWrite b).filter isXfer = [Ev.xfer b, Ev.xfer b] ∧
    (spiWrite b).count Ev.beginT = 1 ∧ (spiWrite b).count Ev.endT = 1 := by
  have h := spiWrite_eq b hb
  refine ⟨?_, ?_, ?_, ?_⟩ <;>
    simp [h, SPI_BEGIN_TRANSACTION, SPI_END_TRANSACTION, TFT_CS_STROBE,
      TFT_WR_STROBE, isXfer, List.count_cons]

/-- Witness for C7 at the concrete byte 0xA5. -/
theorem spiWrite_duplicates_byte_witness :
    (0xA5 : Nat) < 256 ∧
      (spiWrite 0xA5 =
        SPI_BEGIN_TRANSACTION ++ [Ev.xfer 0xA5, Ev.xfer 0xA5, Ev.serial 0xA5] ++
          SPI_END_TRANSACTION ∧
      (spiWrite 0xA5).filter isXfer = [Ev.xfer 0xA5, Ev.xfer 0xA5] ∧
      (spiWrite 0xA5).count Ev.beginT = 1 ∧ (spiWrite 0xA5).count Ev.endT = 1) :=
  ⟨by norm_num, spiWrite_duplicates_byte 0xA5 (by norm_num)⟩

/-- C6: SPI_WRITE32 issues its 32-bit value as two independently bracketed
16-bit word transactions, high word first, each word high byte first — never
one atomic 4-byte transaction. -/
theorem SPI_WRITE32_two_word_txns (l : Nat) (hl : l < 4294967296) :
    SPI_WRITE32 l = SPI_WRITE16 (l >>> 16) ++ SPI_WRITE16 (l % 65536) := by
  have h16 : l >>> 16 < 65536 := by
    rw [Nat.shiftRight_eq_div_pow]; omega
  have hlo : l % 65536 < 65536 := by omega
  rw [SPI_WRITE16_eq _ h16, SPI_WRITE16_eq _ hlo]
  simp only [SPI_WRITE32, SPI_BEGIN_TRANSACTION, SPI_END_TRANSACTION,
    TFT_CS_STROBE, TFT_WR_STROBE, Nat.mod_eq_of_lt hl,
    Nat.shiftRight_eq_div_pow, List.cons_append, List.nil_append,
    List.cons.injEq, Ev.serial.injEq, Ev.xfer.injEq, and_true, true_and]
  norm_num
  omega

/-- Witness for C6 at the spec's longword 0xAABBCCDD: the bus sees the word
0xAABB in one transaction bracket, then 0xCCDD in a second one. -/
theorem SPI_WRITE32_two_word_txns_witness :
    (0xAABBCCDD : Nat) < 4294967296 ∧
      SPI_WRITE32 0xAABBCCDD = SPI_WRITE16 0xAABB ++ SPI_WRITE16 0xCCDD := by
  refine ⟨by norm_num, ?_⟩
  have h := SPI_WRITE32_two_word_txns 0xAABBCCDD (by norm_num)
  simpa using h

/-- C4: setSPISpeed does not change the SPI clock to the requested
frequency; it rebuilds the settings from the DEFAULT_SPI_FREQ constant
(keeping MSBFIRST and SPI_MODE0), ignoring its freq argument entirely, so a
subsequent transaction does not use the requested frequency. -/
theorem setSPISpeed_ignores_freq :
    (∀ (d freq : Nat) (s : SPISettings),
      setSPISpeed d freq s = ⟨d, MSBFIRST, SPI_MODE0⟩) ∧
    (setSPISpeed 16000000 8000000 ⟨16000000, MSBFIRST, SPI_MODE0⟩).clock ≠
      8000000 :=
  ⟨fun _ _ _ => rfl, by decide⟩

/-- C10: each self-contained draw entry point issues exactly the same event
trace as its lower-level write counterpart, on every input. -/
theorem draw_eq_write_variants (W H x y w h : Int) (c : Nat) :
    drawPixel W H x y c = writePixel W H x y c ∧
    fillRect W H x y w h c = writeFillRect W H x y w h c :=
  ⟨rfl, rfl⟩

theorem bswap16_bswap16 (v : Nat) (h : v < 65536) : bswap16 (bswap16 v) = v := by
  unfold bswap16
  have e1 : (v % 256 * 256 + v / 256 % 256) % 256 = v / 256 % 256 := by
    rw [Nat.mul_comm]
    simpa using Nat.mul_add_mod 256 (v % 256) (v / 256 % 256)
  have e2 : (v % 256 * 256 + v / 256 % 256) / 256 = v % 256 := by
    rw [Nat.mul_comm, Nat.mul_add_div (by norm_num)]
    omega
  rw [e1, e2]
  omega

theorem swapBytes_length (src : List Nat) (len : Nat) (dest : List Nat) :
    (swapBytes src len dest).length = dest.length := by
  simp [swapBytes]

theorem swapBytes_getElem (src : List Nat) (len : Nat) (dest : List Nat)
    (i : Nat) (hi : i < (swapBytes src len dest).length) :
    (swapBytes src len dest)[i] =
      if i < len then bswap16 (src.getD i 0) else dest.getD i 0 := by
  simp [swapBytes]

/-- C8: byte-swapping a pixel buffer is an involution — swapping through a
destination and back, or twice in place, restores the original buffer — and
swapBytes writes nothing but the first len elements of the output buffer. -/
theorem swapBytes_involution (src dest : List Nat) (len : Nat)
    (hv : ∀ v ∈ src, v < 65536) (hs : len ≤ src.length)
    (hd : len ≤ dest.length) :
    swapBytes (swapBytes src len dest) len src = src ∧
    swapBytes (swapBytes src len src) len (swapBytes src len src) = src ∧
    (swapBytes src len dest).length = dest.length ∧
    (∀ i, len ≤ i → (swapBytes src len dest).getD i 0 = dest.getD i 0) := by
  have hsrc : ∀ i, i < src.length → src.getD i 0 < 65536 := by
    intro i hi
    rw [List.getD_eq_getElem src 0 hi]
    exact hv _ (List.getElem_mem hi)
  refine ⟨?_, ?_, swapBytes_length src len dest, ?_⟩
  · apply List.ext_getElem
    · simp [swapBytes]
    · intro i h1 h2
      rw [swapBytes_getElem _ _ _ _ h1]
      have hlen : i < src.length := h2
      by_cases hil : i < len
      · rw [if_pos hil]
        have hdl : i < (swapBytes src len dest).length := by
          rw [swapBytes_length]; omega
        rw [List.getD_eq_getElem _ 0 hdl, swapBytes_getElem _ _ _ _ hdl,
          if_pos hil, bswap16_bswap16 _ (hsrc i hlen),
          List.getD_eq_getElem src 0 hlen]
      · rw [if_neg hil, List.getD_eq_getElem src 0 hlen]
  · apply List.ext_getElem
    · simp [swapBytes]
    · intro i h1 h2
      have hlen : i < src.length := h2
      have hsl : i < (swapBytes src len src).length := by
        rw [swapBytes_length]; omega
      rw [swapBytes_getElem]
      by_cases hil : i < len
      · rw [if_pos hil, List.getD_eq_getElem _ 0 hsl,
          swapBytes_getElem _ _ _ _ hsl, if_pos hil,
          bswap16_bswap16 _ (hsrc i hlen), List.getD_eq_getElem src 0 hlen]
      · rw [if_neg hil, List.getD_eq_getElem _ 0 hsl,
          swapBytes_getElem _ _ _ _ hsl, if_neg hil,
          List.getD_eq_getElem src 0 hlen]
  · intro i hil
    by_cases hid : i < dest.length
    · have hdl : i < (swapBytes src len dest).length := by
        rw [swapBytes_length]; omega
      rw [List.getD_eq_getElem _ 0 hdl, swapBytes_getElem _ _ _ _ hdl,
        if_neg (by omega)]
    · rw [List.getD_eq_default _ 0 (by rw [swapBytes_length]; omega),
        List.getD_eq_default _ 0 (by omega)]

/-- Witness for C8 on the concrete buffer [0x1234, 0xABCD] with a distinct
destination buffer. -/
theorem swapBytes_involution_witness :
    (∀ v ∈ [0x1234, 0xABCD], v < 65536) ∧ 2 ≤ ([0x1234, 0xABCD] : List Nat).length ∧
    2 ≤ ([0, 0] : List Nat).length ∧
    (swapBytes (swapBytes [0x1234, 0xABCD] 2 [0, 0]) 2 [0x1234, 0xABCD] =
        [0x1234, 0xABCD] ∧
      swapBytes (swapBytes [0x1234, 0xABCD] 2 [0x1234, 0xABCD]) 2
          (swapBytes [0x1234, 0xABCD] 2 [0x1234, 0xABCD]) = [0x1234, 0xABCD] ∧
      (swapBytes [0x1234, 0xABCD] 2 [0, 0]).length = ([0, 0] : List Nat).length ∧
      (∀ i, 2 ≤ i →
        (swapBytes [0x1234, 0xABCD] 2 [0, 0]).getD i 0 =
          ([0, 0] : List Nat).getD i 0)) :=
  ⟨by decide, by decide, by decide,
    swapBytes_involution [0x1234, 0xABCD] [0, 0] 2 (by decide) (by decide)
      (by decide)⟩

/-- C9: color565 is the pure 5-6-5 packing function: it maps black to
0x0000, white to 0xFFFF, pure red to 0xF800, and on every 8-bit triple it
computes ((red AND 0xF8) shifted left 8) OR ((green AND 0xFC) shifted left
3) OR (blue shifted right 3). -/
theorem color565_spec :
    color565 0 0 0 = 0x0000 ∧ color565 255 255 255 = 0xFFFF ∧
    color565 255 0 0 = 0xF800 ∧
    ∀ red green blue : Nat, red < 256 → green < 256 → blue < 256 →
      color565 red green blue =
        ((red &&& 0xF8) <<< 8) ||| ((green &&& 0xFC) <<< 3) ||| (blue >>> 3) := by
  refine ⟨by decide, by decide, by decide, ?_⟩
  intro red green blue hr hg hb
  unfold color565
  simp only [Nat.mod_eq_of_lt hr, Nat.mod_eq_of_lt hg, Nat.mod_eq_of_lt hb]
  apply Nat.mod_eq_of_lt
  have h1 : (red &&& 0xF8) <<< 8 < 2 ^ 16 := by
    have := Nat.and_le_right (n := red) (m := 0xF8)
    rw [Nat.shiftLeft_eq]; omega
  have h2 : (green &&& 0xFC) <<< 3 < 2 ^ 16 := by
    have := Nat.and_le_right (n := green) (m := 0xFC)
    rw [Nat.shiftLeft_eq]; omega
  have h3 : blue >>> 3 < 2 ^ 16 := by
    rw [Nat.shiftRight_eq_div_pow]; omega
  exact Nat.or_lt_two_pow (Nat.or_lt_two_pow h1 h2) h3

/-- C5: the non-const 8-bit sendCommand overload asserts command mode,
writes the command byte, switches to data mode, then runs one iteration per
declared payload byte, each opening a fresh transaction and writing the
16-bit command value again; the trace never depends on the dataBytes buffer
and the only bytes ever transferred are the command byte and the zero high
byte of the re-sent command word. -/
theorem sendCommand_resends_command (cmd n : Nat) (ds : List Nat)
    (hc : cmd < 256) (hn : n < 256) :
    sendCommand cmd ds n = sendCommand cmd [] n ∧
    sendCommand cmd ds n =
      [Ev.dcLow, Ev.beginT, Ev.xfer cmd, Ev.xfer cmd, Ev.serial cmd, Ev.endT,
       Ev.csHigh, Ev.csLow, Ev.wrLow, Ev.wrHigh, Ev.dcHigh] ++
      (List.range n).flatMap (fun _ =>
        [Ev.beginT, Ev.beginT, Ev.serial 0, Ev.serial cmd, Ev.xfer 0,
         Ev.xfer cmd, Ev.endT, Ev.csHigh, Ev.csLow, Ev.wrLow, Ev.wrHigh,
         Ev.endT, Ev.csHigh, Ev.csLow, Ev.wrLow, Ev.wrHigh]) := by
  refine ⟨rfl, ?_⟩
  have h16 : SPI_WRITE16 cmd =
      [Ev.beginT, Ev.serial 0, Ev.serial cmd, Ev.xfer 0, Ev.xfer cmd, Ev.endT,
       Ev.csHigh, Ev.csLow, Ev.wrLow, Ev.wrHigh] := by
    rw [SPI_WRITE16_eq cmd (by omega), Nat.div_eq_of_lt hc,
      Nat.mod_eq_of_lt hc]
  simp only [sendCommand, Nat.mod_eq_of_lt hc, Nat.mod_eq_of_lt hn,
    spiWrite_eq cmd hc, h16, SPI_DC_LOW, SPI_DC_HIGH, SPI_BEGIN_TRANSACTION,
    SPI_END_TRANSACTION, TFT_CS_STROBE, TFT_WR_STROBE, List.cons_append,
    List.nil_append]

/-- Witness for C5 at command byte 0x2C with a 3-byte payload buffer. -/
theorem sendCommand_resends_command_witness :
    (0x2C : Nat) < 256 ∧ (3 : Nat) < 256 ∧
    (sendCommand 0x2C [0xDE, 0xAD, 0xBE] 3 = sendCommand 0x2C [] 3 ∧
      sendCommand 0x2C [0xDE, 0xAD, 0xBE] 3 =
        [Ev.dcLow, Ev.beginT, Ev.xfer 0x2C, Ev.xfer 0x2C, Ev.serial 0x2C,
         Ev.endT, Ev.csHigh, Ev.csLow, Ev.wrLow, Ev.wrHigh, Ev.dcHigh] ++
        (List.range 3).flatMap (fun _ =>
          [Ev.beginT, Ev.beginT, Ev.serial 0, Ev.serial 0x2C, Ev.xfer 0,
           Ev.xfer 0x2C, Ev.endT, Ev.csHigh, Ev.csLow, Ev.wrLow, Ev.wrHigh,
           Ev.endT, Ev.csHigh, Ev.csLow, Ev.wrLow, Ev.wrHigh])) :=
  ⟨by norm_num, by norm_num,
    sendCommand_resends_command 0x2C 3 [0xDE, 0xAD, 0xBE] (by norm_num)
      (by norm_num)⟩

/-- Witness for C9 at the concrete triple (200, 100, 50). -/
theorem color565_spec_witness :
    (200 : Nat) < 256 ∧ (100 : Nat) < 256 ∧ (50 : Nat) < 256 ∧
    color565 200 100 50 =
      ((200 &&& 0xF8) <<< 8) ||| ((100 &&& 0xFC) <<< 3) ||| (50 >>> 3) :=
  ⟨by norm_num, by norm_num, by norm_num,
    color565_spec.2.2.2 200 100 50 (by norm_num) (by norm_num) (by norm_num)⟩

/-- int16 states that v is a representable int16_t value, the range of every
coordinate parameter of the drawing entry points. -/
abbrev int16 (v : Int) : Prop := -32768 ≤ v ∧ v ≤ 32767

set_option maxHeartbeats 3200000 in
/-- Inversion lemma for the shared clipping cascade: whenever the cascade
dispatches a rectangle (rather than rejecting), that rectangle is strictly
positive and fully on screen, the request had nonzero extents, and its
normalized span overlaps the surface in both dimensions. -/
theorem fillRectClip_some (W H x y w h : Int) (r : Rect)
    (hW : 0 < W ∧ W ≤ 32767) (hH : 0 < H ∧ H ≤ 32767)
    (hx : int16 x) (hy : int16 y) (hw : int16 w) (hh : int16 h)
    (hr : fillRectClip W H x y w h = some r) :
    (0 ≤ r.x ∧ 0 < r.w ∧ r.x + r.w ≤ W ∧ 0 ≤ r.y ∧ 0 < r.h ∧ r.y + r.h ≤ H) ∧
    w ≠ 0 ∧ h ≠ 0 ∧ ¬spanOutside W x w ∧ ¬spanOutside H y h := by
  obtain ⟨hW1, hW2⟩ := hW
  obtain ⟨hH1, hH2⟩ := hH
  obtain ⟨hx1, hx2⟩ := hx
  obtain ⟨hy1, hy2⟩ := hy
  obtain ⟨hw1, hw2⟩ := hw
  obtain ⟨hh1, hh2⟩ := hh
  obtain ⟨rx, ry, rw, rh⟩ := r
  simp only [spanOutside, spanLo, spanHi]
  unfold fillRectClip at hr
  simp only [] at hr
  split_ifs at hr <;>
    first
      | exact Option.noConfusion hr
      | (rw [Option.some.injEq, Rect.mk.injEq] at hr
         simp only [toInt16] at *
         split_ifs <;> omega)

/-- C1: whenever fillRect (equivalently writeFillRect) dispatches to
writeFillRectPreclipped, the dispatched rectangle lies entirely inside the
surface with strictly positive extents, and the resulting trace is exactly
one addressing-window call followed by w * h 16-bit pixel writes of the fill
color and nothing else. -/
theorem fillRect_preclipped_in_bounds (W H x y w h : Int) (c : Nat) (r : Rect)
    (hW : 0 < W ∧ W ≤ 32767) (hH : 0 < H ∧ H ≤ 32767)
    (hx : int16 x) (hy : int16 y) (hw : int16 w) (hh : int16 h)
    (hr : fillRectClip W H x y w h = some r) :
    (0 ≤ r.x ∧ 0 < r.w ∧ r.x + r.w ≤ W ∧ 0 ≤ r.y ∧ 0 < r.h ∧ r.y + r.h ≤ H) ∧
    fillRect W H x y w h c =
      Ev.addrWindow r.x r.y r.w r.h ::
        (List.range (r.w * r.h).toNat).flatMap (fun _ => SPI_WRITE16 c) := by
  have hb := (fillRectClip_some W H x y w h r hW hH hx hy hw hh hr).1
  obtain ⟨hb1, hb2, hb3, hb4, hb5, hb6⟩ := hb
  refine ⟨⟨hb1, hb2, hb3, hb4, hb5, hb6⟩, ?_⟩
  have hfr : fillRect W H x y w h c = writeFillRectPreclipped r.x r.y r.w r.h c := by
    unfold fillRect
    rw [hr]
  rw [hfr]
  unfold writeFillRectPreclipped writeColor toUInt32
  have hwn : (r.w % 4294967296).toNat = r.w.toNat := by omega
  have hhn : (r.h % 4294967296).toNat = r.h.toNat := by omega
  rw [hwn, hhn]
  have hwb : r.w.toNat ≤ 32767 := by omega
  have hhb : r.h.toNat ≤ 32767 := by omega
  have hprod : r.w.toNat * r.h.toNat < 4294967296 := by
    calc r.w.toNat * r.h.toNat ≤ 32767 * 32767 := Nat.mul_le_mul hwb hhb
      _ < 4294967296 := by norm_num
  rw [Nat.mod_eq_of_lt hprod]
  have htn : (r.w * r.h).toNat = r.w.toNat * r.h.toNat := by
    rcases Int.eq_ofNat_of_zero_le hb2.le with ⟨m, hm⟩
    rcases Int.eq_ofNat_of_zero_le hb5.le with ⟨n, hn⟩
    rw [hm, hn, ← Int.natCast_mul, Int.toNat_natCast, Int.toNat_natCast,
      Int.toNat_natCast]
  rw [htn]
  have hne : r.w.toNat * r.h.toNat ≠ 0 := by
    have : 0 < r.w.toNat := by omega
    have : 0 < r.h.toNat := by omega
    positivity
  rw [if_neg hne]

/-- Witness for C1 at the spec's end-to-end scenario: on a 100x100 surface,
fillRect(-10, 50, 30, 10, 0x07E0) dispatches exactly one preclipped call
with rectangle (0, 50, 20, 10) and its trace is the addressing-window call
followed by exactly 200 pixel-word writes of 0x07E0 and nothing else. -/
theorem fillRect_preclipped_in_bounds_witness :
    fillRectClip 100 100 (-10) 50 30 10 = some ⟨0, 50, 20, 10⟩ ∧
    ((0 ≤ (0 : Int) ∧ (0 : Int) < 20 ∧ (0 : Int) + 20 ≤ 100 ∧
        0 ≤ (50 : Int) ∧ (0 : Int) < 10 ∧ (50 : Int) + 10 ≤ 100) ∧
      fillRect 100 100 (-10) 50 30 10 0x07E0 =
        Ev.addrWindow 0 50 20 10 ::
          (List.range 200).flatMap (fun _ => SPI_WRITE16 0x07E0)) := by
  have hclip : fillRectClip 100 100 (-10) 50 30 10 = some ⟨0, 50, 20, 10⟩ := by
    decide
  refine ⟨hclip, ?_⟩
  have h := fillRect_preclipped_in_bounds 100 100 (-10) 50 30 10 0x07E0
    ⟨0, 50, 20, 10⟩ (by norm_num) (by norm_num) (by decide) (by decide)
    (by decide) (by decide) hclip
  simpa using h

/-- C3: a fillRect request with negative width behaves exactly like the
request shifted to its left edge with the positive width, and symmetrically
a negative height behaves like the request shifted to its top edge with the
positive height, whenever the normalized arguments are themselves
representable int16_t values. -/
theorem fillRect_negative_extent_norm (W H x y w h : Int) (c : Nat)
    (hx : int16 x) (hy : int16 y) (hw : int16 w) (hh : int16 h) :
    (w < 0 → -32768 ≤ x + w + 1 → -w ≤ 32767 →
      fillRect W H x y w h c = fillRect W H (x + w + 1) y (-w) h c) ∧
    (h < 0 → -32768 ≤ y + h + 1 → -h ≤ 32767 →
      fillRect W H x y w h c = fillRect W H x (y + h + 1) w (-h) c) := by
  obtain ⟨hx1, hx2⟩ := hx
  obtain ⟨hy1, hy2⟩ := hy
  obtain ⟨hw1, hw2⟩ := hw
  obtain ⟨hh1, hh2⟩ := hh
  constructor
  · intro hw0 hr1 hr2
    have key : fillRectClip W H x y w h = fillRectClip W H (x + w + 1) y (-w) h := by
      unfold fillRectClip
      have e1 : toInt16 (x + w + 1) = x + w + 1 :=
        toInt16_eq_self _ hr1 (by omega)
      have e2 : toInt16 (-w) = -w := toInt16_eq_self _ (by omega) hr2
      have hne : w ≠ 0 := by omega
      have hne' : -w ≠ 0 := by omega
      have hneg : ¬(-w < 0) := by omega
      simp only [hw0, hne, hne', hneg, e1, e2, if_true, if_false,
        ne_eq, not_false_eq_true, true_and, if_neg hneg]
    unfold fillRect
    rw [key]
  · intro hh0 hr1 hr2
    have key : fillRectClip W H x y w h = fillRectClip W H x (y + h + 1) w (-h) := by
      unfold fillRectClip
      have e1 : toInt16 (y + h + 1) = y + h + 1 :=
        toInt16_eq_self _ hr1 (by omega)
      have e2 : toInt16 (-h) = -h := toInt16_eq_self _ (by omega) hr2
      have hne : h ≠ 0 := by omega
      have hne' : -h ≠ 0 := by omega
      have hneg : ¬(-h < 0) := by omega
      simp only [hh0, hne, hne', hneg, e1, e2, if_true, if_false,
        ne_eq, not_false_eq_true, and_true, if_neg hneg]
    unfold fillRect
    rw [key]

/-- Witness for C3 on a 100x100 surface at (25, 3, -10, 7) for the width
part and (25, 3, 10, -7) for the height part. -/
theorem fillRect_negative_extent_norm_witness :
    ((-10 : Int) < 0 ∧
      fillRect 100 100 25 3 (-10) 7 5 = fillRect 100 100 16 3 10 7 5) ∧
    ((-7 : Int) < 0 ∧
      fillRect 100 100 25 3 10 (-7) 5 = fillRect 100 100 25 (-3) 10 7 5) := by
  constructor
  · refine ⟨by norm_num, ?_⟩
    have h := (fillRect_negative_extent_norm 100 100 25 3 (-10) 7 5
      (by decide) (by decide) (by decide) (by decide)).1
      (by norm_num) (by norm_num) (by norm_num)
    simpa using h
  · refine ⟨by norm_num, ?_⟩
    have h := (fillRect_negative_extent_norm 100 100 25 3 10 (-7) 5
      (by decide) (by decide) (by decide) (by decide)).2
      (by norm_num) (by norm_num) (by norm_num)
    simpa using h

/-- C2 counterexample: on a 100x100 surface the zero-width request
drawRGBBitmap(5, 5, p, 0, 3) is not rejected by the code's edge tests and
issues an addressing-window call, so a request the claim counts as fully
rejected (zero width) performs addressing-window programming. -/
theorem drawRGBBitmap_zero_width_cex :
    drawRGBBitmap 100 100 5 5 [] 0 3 = [Ev.addrWindow 5 5 0 3] ∧
    drawRGBBitmap 100 100 5 5 [] 0 3 ≠ [] := by
  constructor
  · decide
  · decide

set_option maxHeartbeats 1600000 in
/-- C2 (amended): a fully rejected self-contained draw call issues zero bus
events — for drawPixel any off-screen pixel, for fillRect any zero extent or
normalized-span fully outside request, for drawFastHLine and drawFastVLine
likewise in their free dimension or an off-screen fixed coordinate; for
drawRGBBitmap the guarantee holds for positive extents whose rectangle lies
fully past an edge (the code performs no zero- or negative-extent rejection
for bitmaps, see the counterexample). -/
theorem draw_rejected_zero_bus (W H : Int)
    (hW : 0 < W ∧ W ≤ 32767) (hH : 0 < H ∧ H ≤ 32767) :
    (∀ (x y : Int) (c : Nat), (x < 0 ∨ W ≤ x ∨ y < 0 ∨ H ≤ y) →
      drawPixel W H x y c = []) ∧
    (∀ (x y w h : Int) (c : Nat), int16 x → int16 y → int16 w → int16 h →
      (w = 0 ∨ h = 0 ∨ spanOutside W x w ∨ spanOutside H y h) →
      fillRect W H x y w h c = []) ∧
    (∀ (x y w : Int) (c : Nat), int16 x → int16 y → int16 w →
      (w = 0 ∨ y < 0 ∨ H ≤ y ∨ spanOutside W x w) →
      drawFastHLine W H x y w c = []) ∧
    (∀ (x y h : Int) (c : Nat), int16 x → int16 y → int16 h →
      (h = 0 ∨ x < 0 ∨ W ≤ x ∨ spanOutside H y h) →
      drawFastVLine W H x y h c = []) ∧
    (∀ (x y w h : Int) (p : List Nat), int16 x → int16 y → int16 w → int16 h →
      1 ≤ w → 1 ≤ h → (W ≤ x ∨ H ≤ y ∨ x + w - 1 < 0 ∨ y + h - 1 < 0) →
      drawRGBBitmap W H x y p w h = []) := by
  obtain ⟨hW1, hW2⟩ := hW
  obtain ⟨hH1, hH2⟩ := hH
  refine ⟨?_, ?_, ?_, ?_, ?_⟩
  · intro x y c hrej
    unfold drawPixel
    rw [if_neg (by omega)]
  · intro x y w h c hx hy hw hh hrej
    rcases heq : fillRectClip W H x y w h with _ | r
    · unfold fillRect
      rw [heq]
    · exfalso
      obtain ⟨-, hw0, hh0, hsx, hsy⟩ :=
        fillRectClip_some W H x y w h r ⟨hW1, hW2⟩ ⟨hH1, hH2⟩ hx hy hw hh heq
      rcases hrej with h0 | h0 | h0 | h0
      · exact hw0 h0
      · exact hh0 h0
      · exact hsx h0
      · exact hsy h0
  · intro x y w c hx hy hw hrej
    obtain ⟨hx1, hx2⟩ := hx
    obtain ⟨hy1, hy2⟩ := hy
    obtain ⟨hw1, hw2⟩ := hw
    unfold drawFastHLine
    simp only [spanOutside, spanLo, spanHi] at hrej
    simp only []
    split_ifs at hrej ⊢ <;>
      first
        | rfl
        | (exfalso; simp only [toInt16] at *; omega)
  · intro x y h c hx hy hh hrej
    obtain ⟨hx1, hx2⟩ := hx
    obtain ⟨hy1, hy2⟩ := hy
    obtain ⟨hh1, hh2⟩ := hh
    unfold drawFastVLine
    simp only [spanOutside, spanLo, spanHi] at hrej
    simp only []
    split_ifs at hrej ⊢ <;>
      first
        | rfl
        | (exfalso; simp only [toInt16] at *; omega)
  · intro x y w h p hx hy hw hh hw1 hh1 hrej
    obtain ⟨hx1, hx2⟩ := hx
    obtain ⟨hy1, hy2⟩ := hy
    obtain ⟨hwl, hwu⟩ := hw
    obtain ⟨hhl, hhu⟩ := hh
    unfold drawRGBBitmap
    simp only []
    split_ifs <;>
      first
        | rfl
        | (exfalso; simp only [toInt16] at *; omega)

/-- Witness for C2 (amended) on a 100x100 surface: a pixel off the right
edge, a zero-width rectangle, a fully-off-left line, a fully-off-top line
and a fully-off-right bitmap all produce the empty trace. -/
theorem draw_rejected_zero_bus_witness :
    ((0 : Int) < 100 ∧ (100 : Int) ≤ 32767) ∧
    drawPixel 100 100 150 5 7 = [] ∧
    fillRect 100 100 3 4 0 5 7 = [] ∧
    drawFastHLine 100 100 (-200) 5 50 7 = [] ∧
    drawFastVLine 100 100 5 (-200) 50 7 = [] ∧
    drawRGBBitmap 100 100 120 5 [] 3 3 = [] := by
  have h := draw_rejected_zero_bus 100 100 (by norm_num) (by norm_num)
  refine ⟨by norm_num, h.1 150 5 7 (by norm_num), ?_, ?_, ?_, ?_⟩
  · exact h.2.1 3 4 0 5 7 (by decide) (by decide) (by decide)
      (by decide) (by decide)
  · exact h.2.2.1 (-200) 5 50 7 (by decide) (by decide) (by decide)
      (by decide)
  · exact h.2.2.2.1 5 (-200) 50 7 (by decide) (by decide) (by decide)
      (by decide)
  · exact h.2.2.2.2 120 5 3 3 [] (by decide) (by decide) (by decide)
      (by decide) (by norm_num) (by norm_num) (by decide)

end SPITFT
